import Mathlib

/-!
Shallow embedding of the Locus-MQ queue engine (src/core/MessageQueue.ts over the
SQLite schema created in src/core/DatabaseManager.ts), together with theorems
settling the specification claims about it.

Modelling conventions:
* The two durable tables, messages and dead_letter_messages, are lists of rows
  in rowid (insertion) order.  Timestamps are Unix seconds as Nat, matching the
  INTEGER second-granularity columns the code writes.  Millisecond inputs
  (Date.now(), the delay option, Date-valued expiresAt) are divided by 1000
  exactly where the code does.
* Every db.executeTransaction callback runs atomically in better-sqlite3 (one
  synchronous connection, a single writer); a transaction is therefore embedded
  as one Lean function from the database state to the next database state, and
  a throw inside the callback rolls the whole transaction back, embedded as an
  Except.error result paired with the unchanged state.
* The PRIMARY KEY constraints of both tables are modelled: an INSERT whose id
  already exists throws, aborting the transaction.  The FOREIGN KEY on
  queue_name is not modelled (the referenced queues row is assumed present).
* Payload and metadata are the JSON strings the code stores
  (JSON.stringify results); the engine never inspects them.
-/

namespace LocusMQ

/-- Equality of transaction results is decidable, so concrete runs can be
checked by evaluation. -/
instance {ε α : Type} [DecidableEq ε] [DecidableEq α] :
    DecidableEq (Except ε α) := fun x y =>
  match x, y with
  | Except.ok a, Except.ok b => decidable_of_iff (a = b) (by simp)
  | Except.error a, Except.error b => decidable_of_iff (a = b) (by simp)
  | Except.ok _, Except.error _ => isFalse fun hc => Except.noConfusion hc
  | Except.error _, Except.ok _ => isFalse fun hc => Except.noConfusion hc

/-- Message status column: one of pending, processing, completed, failed. -/
inductive Status where
  | pending
  | processing
  | completed
  | failed
deriving DecidableEq, Repr

/-- One row of the messages table, as created by DatabaseManager.createTables. -/
structure MessageRow where
  id : String
  queueName : String
  payload : String
  status : Status
  priority : Int
  retries : Nat
  maxRetries : Nat
  createdAt : Nat
  availableAt : Nat
  processedAt : Option Nat := none
  failedAt : Option Nat := none
  errorMessage : Option String := none
  processingTime : Option Nat := none
  metadata : Option String := none
  deduplicationId : Option String := none
  expiresAt : Option Nat := none
deriving DecidableEq, Repr

/-- One row of the dead_letter_messages table. -/
structure DeadLetterRow where
  id : String
  originalId : String
  queueName : String
  payload : String
  errorMessage : String
  retries : Nat
  createdAt : Nat
  originalCreatedAt : Nat
  metadata : Option String := none
deriving DecidableEq, Repr

/-- The durable state: both tables, rows in insertion order. -/
structure DB where
  messages : List MessageRow
  deadLetters : List DeadLetterRow
deriving DecidableEq, Repr

/-- The freshly created database (after createTables, before any insert). -/
def emptyDB : DB := ⟨[], []⟩

/-- MessageQueueOptions as merged in the MessageQueue constructor
(maxRetries defaults to 3). -/
structure MQOptions where
  maxRetries : Nat := 3
deriving Repr

/-- SendMessageOptions.  delay is in milliseconds (default 0, from
options.delay || 0); expiresAt carries a millisecond epoch like the
Date the caller passes. -/
structure SendOptions where
  delay : Nat := 0
  priority : Option Int := none
  maxRetries : Option Nat := none
  metadata : Option String := none
  deduplicationId : Option String := none
  expiresAt : Option Nat := none
deriving Repr

/-- The deadLetterQueue consume option (default enabled with maxRetries 3). -/
structure DeadLetterConfig where
  enabled : Bool := true
  maxRetries : Nat := 3
deriving Repr

/-- The row built by send before its INSERT: status pending, retries 0,
priority defaulting to 5, maxRetries defaulting to the queue option,
createdAt = floor(now/1000), availableAt = floor((now + delay)/1000). -/
def newMessageRow (nowMs : Nat) (mid q payload : String) (opts : SendOptions)
    (mq : MQOptions) : MessageRow :=
  { id := mid
    queueName := q
    payload := payload
    status := Status.pending
    priority := opts.priority.getD 5
    retries := 0
    maxRetries := opts.maxRetries.getD mq.maxRetries
    createdAt := nowMs / 1000
    availableAt := (nowMs + opts.delay) / 1000
    metadata := opts.metadata
    deduplicationId := opts.deduplicationId
    expiresAt := opts.expiresAt.map (fun e => e / 1000) }

/-- The WHERE filter of the deduplication SELECT in send: same queue, same
deduplication id, status not equal to failed. -/
def dedupMatch (q d : String) (r : MessageRow) : Bool :=
  r.queueName == q && r.deduplicationId == some d && r.status != Status.failed

/-- The deduplication lookup of send: SELECT id ... ORDER BY created_at DESC
LIMIT 1 over the rows matching dedupMatch.  SQLite leaves the order of rows
with equal created_at unspecified; this embedding deterministically keeps the
earliest-inserted row among ties (a stable descending sort of the table scan).
All concrete inputs used in the theorems below avoid ties, so no conclusion
depends on this choice. -/
def dedupLookup (q d : String) (ms : List MessageRow) : Option MessageRow :=
  (ms.filter (dedupMatch q d)).foldl
    (fun acc r =>
      match acc with
      | none => some r
      | some a => if a.createdAt < r.createdAt then some r else acc)
    none

/-- MessageQueue.send.  Inside one transaction the code first INSERTs the new
row, then, when a deduplicationId was given, runs the deduplication SELECT and
throws when the returned row is a different message; the throw aborts the
transaction and rolls the INSERT back.  A PRIMARY KEY clash on the INSERT
likewise aborts the transaction. -/
def send (nowMs : Nat) (mid q payload : String) (opts : SendOptions)
    (mq : MQOptions) (db : DB) : Except String String × DB :=
  if db.messages.any (fun r => r.id == mid) then
    (Except.error "UNIQUE constraint failed: messages.id", db)
  else
    match opts.deduplicationId with
    | none =>
      (Except.ok mid,
       { db with messages := db.messages ++ [newMessageRow nowMs mid q payload opts mq] })
    | some d =>
      match dedupLookup q d
          (db.messages ++ [newMessageRow nowMs mid q payload opts mq]) with
      | some existing =>
        if existing.id = mid then
          (Except.ok mid,
           { db with messages := db.messages ++ [newMessageRow nowMs mid q payload opts mq] })
        else (Except.error ("Duplicate message with deduplication ID: " ++ d), db)
      | none =>
        (Except.ok mid,
         { db with messages := db.messages ++ [newMessageRow nowMs mid q payload opts mq] })

/-- The WHERE filter of the claim SELECT in fetchMessages: queue_name = ?,
status = pending, available_at <= now.  The SELECT consults no other column;
in particular expires_at is absent from it. -/
def fetchFilter (q : String) (now : Nat) (r : MessageRow) : Bool :=
  r.queueName == q && r.status == Status.pending && decide (r.availableAt ≤ now)

/-- ORDER BY priority DESC, created_at ASC of the claim SELECT. -/
def claimOrder (a b : MessageRow) : Prop :=
  b.priority < a.priority ∨ (a.priority = b.priority ∧ a.createdAt ≤ b.createdAt)

instance : DecidableRel claimOrder := fun a b => by
  unfold claimOrder
  exact inferInstance

instance : IsTotal MessageRow claimOrder := by
  constructor
  intro a b
  unfold claimOrder
  rcases lt_trichotomy a.priority b.priority with h | h | h
  · exact Or.inr (Or.inl h)
  · rcases Nat.le_total a.createdAt b.createdAt with h2 | h2
    · exact Or.inl (Or.inr ⟨h, h2⟩)
    · exact Or.inr (Or.inr ⟨h.symm, h2⟩)
  · exact Or.inl (Or.inl h)

instance : IsTrans MessageRow claimOrder := by
  constructor
  intro a b c hab hbc
  unfold claimOrder at *
  rcases hab with h1 | ⟨h1, h1c⟩
  · rcases hbc with h2 | ⟨h2, _⟩
    · exact Or.inl (lt_trans h2 h1)
    · exact Or.inl (h2 ▸ h1)
  · rcases hbc with h2 | ⟨h2, h2c⟩
    · exact Or.inl (h1 ▸ h2)
    · exact Or.inr ⟨h1.trans h2, h1c.trans h2c⟩

/-- The rows returned by the claim SELECT: filter, sort, LIMIT. -/
def claimSelect (q : String) (now : Nat) (limit : Nat) (db : DB) : List MessageRow :=
  (List.insertionSort claimOrder (db.messages.filter (fetchFilter q now))).take limit

/-- One execution of the UPDATE statement of fetchMessages on one row:
UPDATE messages SET status = processing, processing_time = now WHERE id = ?.
The WHERE clause names only the id; the update is applied to the matching row
regardless of its current status. -/
def claimUpdateRow (mid : String) (now : Nat) (r : MessageRow) : MessageRow :=
  if r.id = mid then { r with status := Status.processing, processingTime := some now }
  else r

/-- Modelled from the spec: the per-row compare-and-swap update the spec
prescribes for step 2 of the claim protocol, which transitions a row only when
its status is still pending at the moment of the update.  This definition
follows the words of the spec and exists solely to be compared with
claimUpdateRow, the update the source actually runs. -/
def claimUpdateRowCAS (mid : String) (now : Nat) (r : MessageRow) : MessageRow :=
  if r.id = mid ∧ r.status = Status.pending then
    { r with status := Status.processing, processingTime := some now }
  else r

/-- messages.forEach(msg => updateStmt.run(msg.id)): the UPDATE statement is
run once per selected row, in batch order, inside the same transaction as the
SELECT. -/
def applyClaimUpdates (ids : List String) (now : Nat)
    (ms : List MessageRow) : List MessageRow :=
  ids.foldl (fun acc mid => acc.map (claimUpdateRow mid now)) ms

/-- MessageQueue.fetchMessages: one transaction that runs the claim SELECT and
then the per-row UPDATE for every selected row; the full selected batch is
returned to the caller. -/
def fetchMessages (q : String) (now : Nat) (limit : Nat) (db : DB) :
    List MessageRow × DB :=
  let batch := claimSelect q now limit db
  (batch,
   { db with messages := applyClaimUpdates (batch.map MessageRow.id) now db.messages })

/-- Semantics of UPDATE messages SET ... WHERE id = ?: the SET clause g is
applied to every row whose id matches, other rows stay as they are. -/
def updateById (mid : String) (g : MessageRow → MessageRow)
    (ms : List MessageRow) : List MessageRow :=
  ms.map (fun r => if r.id = mid then g r else r)

/-- MessageQueue.markMessageCompleted: UPDATE messages SET status = completed,
processed_at = now, processing_time = ? WHERE id = ?. -/
def markMessageCompleted (now pt : Nat) (mid : String) (db : DB) : DB :=
  { db with
    messages := updateById mid (fun r =>
      { r with status := Status.completed, processedAt := some now,
               processingTime := some pt }) db.messages }

/-- MessageQueue.markMessageFailed: UPDATE messages SET status = failed,
failed_at = now, error_message = ? WHERE id = ?. -/
def markMessageFailed (now : Nat) (err : String) (mid : String) (db : DB) : DB :=
  { db with
    messages := updateById mid (fun r =>
      { r with status := Status.failed, failedAt := some now,
               errorMessage := some err }) db.messages }

/-- MessageQueue.retryMessage: UPDATE messages SET status = pending,
retries = retries + 1, available_at = now + (retries * 60) WHERE id = ?.
In a SQLite UPDATE every column reference on a right-hand side denotes the
value before the update, so the added backoff is the old retries count times
60 seconds, not the incremented one. -/
def retryMessage (now : Nat) (mid : String) (db : DB) : DB :=
  { db with
    messages := updateById mid (fun r =>
      { r with status := Status.pending, retries := r.retries + 1,
               availableAt := now + r.retries * 60 }) db.messages }

/-- MessageQueue.moveToDeadLetter: one transaction inserting the dead-letter
copy (fresh uuid primary key, original_id = message.id, retries and payload and
metadata copied, created_at = now, original_created_at = message.createdAt) and
deleting the original messages row.  A PRIMARY KEY clash on the insert aborts
the whole transaction. -/
def moveToDeadLetter (now : Nat) (dlqId : String) (msg : MessageRow)
    (err : String) (db : DB) : Except String Unit × DB :=
  if db.deadLetters.any (fun e => e.id == dlqId) then
    (Except.error "UNIQUE constraint failed: dead_letter_messages.id", db)
  else
    (Except.ok (),
      { messages := db.messages.filter (fun r => !(r.id == msg.id)),
        deadLetters := db.deadLetters ++
          [{ id := dlqId, originalId := msg.id, queueName := msg.queueName,
             payload := msg.payload, errorMessage := err, retries := msg.retries,
             createdAt := now, originalCreatedAt := msg.createdAt,
             metadata := msg.metadata }] })

/-- The messages row inserted by requeueDeadLetterMessage: the INSERT lists
only id, queue_name, payload, priority, retries, max_retries, created_at,
available_at and metadata, with priority hard-coded to 5, retries to 0 and
max_retries to 3; the omitted status column takes the schema default pending,
and the omitted deduplication_id and expires_at columns are NULL. -/
def requeueRow (now : Nat) (newId : String) (d : DeadLetterRow) : MessageRow :=
  { id := newId
    queueName := d.queueName
    payload := d.payload
    status := Status.pending
    priority := 5
    retries := 0
    maxRetries := 3
    createdAt := now
    availableAt := now
    metadata := d.metadata }

/-- MessageQueue.requeueDeadLetterMessage: one transaction that looks the
dead-letter row up by id (throwing when absent), inserts the new messages row
and deletes the dead-letter row.  A PRIMARY KEY clash on the insert aborts the
transaction. -/
def requeueDeadLetterMessage (now : Nat) (newId dlqId : String) (db : DB) :
    Except String Unit × DB :=
  match db.deadLetters.find? (fun e => e.id == dlqId) with
  | none => (Except.error ("Dead letter message not found: " ++ dlqId), db)
  | some d =>
    if db.messages.any (fun r => r.id == newId) then
      (Except.error "UNIQUE constraint failed: messages.id", db)
    else
      (Except.ok (),
        { messages := db.messages ++ [requeueRow now newId d],
          deadLetters := db.deadLetters.filter (fun e => !(e.id == dlqId)) })

/-- MessageQueue.cleanupExpiredMessages with no queue argument: DELETE FROM
messages WHERE expires_at IS NOT NULL AND expires_at < now.  (With a queue
argument the code appends a second WHERE clause, which is not valid SQL; only
the argument-free variant is modelled.)  Returns the number of rows removed. -/
def cleanupExpiredMessages (now : Nat) (db : DB) : Nat × DB :=
  let keep := db.messages.filter (fun r =>
    !(match r.expiresAt with
      | some e => decide (e < now)
      | none => false))
  (db.messages.length - keep.length, { db with messages := keep })

/-- The store operations a consumer can invoke on a message outcome. -/
inductive StoreOp where
  | markCompleted
  | markFailed
  | retry
  | moveToDL
deriving DecidableEq, Repr

/-- The routing decision of MessageQueue.handleMessageError: with
effectiveMaxRetries = min(message.maxRetries, deadLetterConfig.maxRetries),
retry when message.retries < effectiveMaxRetries, else move to the dead-letter
queue when dead-lettering is enabled, else mark failed. -/
def handleMessageErrorOp (msg : MessageRow) (cfg : DeadLetterConfig) : StoreOp :=
  if msg.retries < min msg.maxRetries cfg.maxRetries then StoreOp.retry
  else if cfg.enabled then StoreOp.moveToDL
  else StoreOp.markFailed

/-- The store operations invoked on one failed handler attempt, in order: the
catch block of processMessage invokes markMessageFailed and rethrows, after
which the consume loop catch invokes handleMessageError, which invokes exactly
one of retryMessage, moveToDeadLetter and markMessageFailed. -/
def failedAttemptOps (msg : MessageRow) (cfg : DeadLetterConfig) : List StoreOp :=
  [StoreOp.markFailed] ++ [handleMessageErrorOp msg cfg]

/-- Number of invocations of the three failure-routing store operations
(retryMessage, moveToDeadLetter, markMessageFailed) in a list of store
operations. -/
def routingOpCount (ops : List StoreOp) : Nat :=
  (ops.filter (fun o =>
    o == StoreOp.retry || o == StoreOp.moveToDL || o == StoreOp.markFailed)).length

/-- The state effect of MessageQueue.handleMessageError, routing the failed
message per handleMessageErrorOp.  The dead-letter branch generates a fresh
uuid for the dead-letter row; it is passed in as dlqId. -/
def handleMessageErrorState (now : Nat) (dlqId : String) (msg : MessageRow)
    (err : String) (cfg : DeadLetterConfig) (db : DB) : DB :=
  if msg.retries < min msg.maxRetries cfg.maxRetries then
    retryMessage now msg.id db
  else if cfg.enabled then
    (moveToDeadLetter now dlqId msg err db).2
  else
    markMessageFailed now err msg.id db

/-- One poll cycle of a consumer with batchSize 1 whose handler always fails:
fetchMessages claims at most one message; on a claimed message,
processMessage races the handler against the timeout, the failure makes its
catch block invoke markMessageFailed and rethrow, and the consume loop then
invokes handleMessageError.  Returns none when the poll found no message. -/
def failingPollCycle (t : Nat) (q dlqId err : String) (cfg : DeadLetterConfig)
    (db : DB) : Option DB :=
  match fetchMessages q t 1 db with
  | ([], _) => none
  | (msg :: _, db1) =>
    some (handleMessageErrorState t dlqId msg err cfg (markMessageFailed t err msg.id db1))

/-- Repeated poll cycles of the always-failing consumer: each entry of the
schedule is the wall-clock second of the cycle paired with the uuid the cycle
would use for a dead-letter insert; the accumulator counts handler
invocations (one per claimed message). -/
def failingConsumerRun (q err : String) (cfg : DeadLetterConfig) :
    List (Nat × String) → DB → Nat → Nat × DB
  | [], db, n => (n, db)
  | (t, dlqId) :: rest, db, n =>
    match failingPollCycle t q dlqId err cfg db with
    | none => failingConsumerRun q err cfg rest db n
    | some db2 => failingConsumerRun q err cfg rest db2 (n + 1)

/-- One atomic step a consumer can take against the shared store while
processing successfully: a poll (fetchMessages, one transaction) or a
completion (markMessageCompleted, one transaction).  better-sqlite3 runs
transactions one at a time on the single connection, so an arbitrary
interleaving of two concurrent consumers is an arbitrary sequence of these
steps. -/
inductive ConsumerOp where
  | poll (now : Nat) (limit : Nat)
  | complete (now : Nat) (pt : Nat) (mid : String)

/-- Runs a sequence of consumer steps against the store, accumulating every
message handed to a handler (each message returned by a poll is dispatched to
the handler exactly once by the consume loop). -/
def runConsumerOps (q : String) : List ConsumerOp → DB → List MessageRow × DB
  | [], db => ([], db)
  | ConsumerOp.poll t l :: rest, db =>
    let step := fetchMessages q t l db
    let next := runConsumerOps q rest step.2
    (step.1 ++ next.1, next.2)
  | ConsumerOp.complete t pt mid :: rest, db =>
    runConsumerOps q rest (markMessageCompleted t pt mid db)

/-- Number of messages rows carrying the given id. -/
def msgCount (db : DB) (mid : String) : Nat :=
  (db.messages.filter (fun r => r.id == mid)).length

/-- Number of dead-letter rows whose original_id is the given message id. -/
def dlqOrigCount (db : DB) (mid : String) : Nat :=
  (db.deadLetters.filter (fun e => e.originalId == mid)).length

/-- Every message id has at most one row across the messages table and the
dead-letter set — in particular never one in both. -/
def AtMostOne (db : DB) : Prop :=
  ∀ mid, msgCount db mid + dlqOrigCount db mid ≤ 1

/-- One transition of the durable store through the MessageQueue operations.
Where the code generates a uuid (send, moveToDeadLetter, requeue), the step
carries it as a parameter together with the freshness facts uuid generation
provides; the moveToDeadLetter step additionally records that handleMessageError
is only ever invoked on a message previously claimed from the messages table,
whose row (same id) is still present, since only its claiming consumer removes
it. -/
inductive Step : DB → DB → Prop where
  | sendStep (nowMs : Nat) (mid q payload : String) (opts : SendOptions)
      (mq : MQOptions) (db : DB)
      (hfresh : ∀ e ∈ db.deadLetters, e.originalId ≠ mid) :
      Step db (send nowMs mid q payload opts mq db).2
  | fetchStep (q : String) (now limit : Nat) (db : DB) :
      Step db (fetchMessages q now limit db).2
  | completeStep (now pt : Nat) (mid : String) (db : DB) :
      Step db (markMessageCompleted now pt mid db)
  | failStep (now : Nat) (err mid : String) (db : DB) :
      Step db (markMessageFailed now err mid db)
  | retryStep (now : Nat) (mid : String) (db : DB) :
      Step db (retryMessage now mid db)
  | moveStep (now : Nat) (dlqId : String) (msg : MessageRow) (err : String) (db : DB)
      (hclaimed : ∃ r ∈ db.messages, r.id = msg.id) :
      Step db (moveToDeadLetter now dlqId msg err db).2
  | requeueStep (now : Nat) (newId dlqId : String) (db : DB)
      (hfresh : ∀ e ∈ db.deadLetters, e.originalId ≠ newId) :
      Step db (requeueDeadLetterMessage now newId dlqId db).2
  | cleanupStep (now : Nat) (db : DB) :
      Step db (cleanupExpiredMessages now db).2

/-- The durable states reachable from the freshly created database. -/
def Reachable (db : DB) : Prop :=
  Relation.ReflTransGen Step emptyDB db

/-! ### Concrete states used by the claim theorems -/

/-- A completed row used to probe the claim UPDATE statement. -/
def doneRow : MessageRow :=
  { id := "m1", queueName := "q", payload := "p", status := Status.completed,
    priority := 5, retries := 0, maxRetries := 3, createdAt := 1, availableAt := 0 }

/-- A pending available message, created at second 1. -/
def rowA : MessageRow :=
  { id := "a", queueName := "q", payload := "1", status := Status.pending,
    priority := 5, retries := 0, maxRetries := 3, createdAt := 1, availableAt := 0 }

/-- A second pending available message with the same priority, created later. -/
def rowB : MessageRow := { rowA with id := "b", payload := "2", createdAt := 2 }

/-- A store holding exactly the two enqueued messages of the two-consumer
scenario. -/
def dbTwo : DB := ⟨[rowA, rowB], []⟩

/-- Send options carrying deduplication id d. -/
def dedupOpts : SendOptions := { deduplicationId := some "d" }

/-- Store state after a first send with deduplication id d at second 100. -/
def dbAfterFirstSend : DB := (send 100000 "m1" "q" "p" dedupOpts {} emptyDB).2

/-- The row that first send inserted. -/
def sentProbeRow : MessageRow := newMessageRow 100000 "m1" "q" "p" dedupOpts {}

/-- A second send of the same (queue, deduplication id) pair, one hundred
seconds after the first. -/
def secondSend : Except String String × DB :=
  send 200000 "m2" "q" "p" dedupOpts {} dbAfterFirstSend

/-- A pending message whose expiry deadline (second 5) has already passed. -/
def expiredRow : MessageRow := { rowA with id := "e1", expiresAt := some 5 }

/-- A store holding only the expired pending message. -/
def dbExpired : DB := ⟨[expiredRow], []⟩

/-- Store state after sending a message with maxRetries 2 at second 1000. -/
def dbMaxRetriesTwo : DB :=
  (send 1000000 "m1" "q" "p" { maxRetries := some 2 } {} emptyDB).2

/-- Poll schedule of the always-failing consumer: four cycles, far enough
apart that every retry backoff has elapsed, each with the uuid a dead-letter
insert would use. -/
def failSchedule : List (Nat × String) :=
  [(2000, "d1"), (3000, "d2"), (4000, "d3"), (5000, "d4")]

/-- The complete run of the always-failing consumer on dbMaxRetriesTwo. -/
def failRun : Nat × DB := failingConsumerRun "q" "boom" {} failSchedule dbMaxRetriesTwo 0

/-- A claimed (processing) row about to be retried for the first time. -/
def retryProbeRow : MessageRow := { rowA with id := "r1", status := Status.processing }

/-- A store holding only the row about to be retried. -/
def dbRetryProbe : DB := ⟨[retryProbeRow], []⟩

/-- Store state after sending a message whose expiresAt is second 5. -/
def dbWithExpiry : DB := (send 100000 "m1" "q" "p" { expiresAt := some 5000 } {} emptyDB).2

/-- Store state after the expired message was purged at second 10. -/
def dbAfterPurge : DB := (cleanupExpiredMessages 10 dbWithExpiry).2

/-- A dead-letter row whose original message had a non-default priority and
retry budget. -/
def dlRowProbe : DeadLetterRow :=
  { id := "dl1", originalId := "m9", queueName := "q", payload := "p",
    errorMessage := "boom", retries := 7, createdAt := 50, originalCreatedAt := 40 }

/-- A store holding only that dead-letter row. -/
def dbWithDeadLetter : DB := ⟨[], [dlRowProbe]⟩

/-! ### Helper lemmas about the embedded operations -/

theorem mem_updateById_eq {mid : String} {g : MessageRow → MessageRow}
    {ms : List MessageRow} {r : MessageRow} (hr : r ∈ ms) (he : r.id = mid) :
    g r ∈ updateById mid g ms := by
  have hmem := List.mem_map_of_mem (fun r0 => if r0.id = mid then g r0 else r0) hr
  simpa [updateById, he] using hmem

theorem mem_updateById_ne {mid : String} {g : MessageRow → MessageRow}
    {ms : List MessageRow} {r : MessageRow} (hr : r ∈ ms) (he : r.id ≠ mid) :
    r ∈ updateById mid g ms := by
  have hmem := List.mem_map_of_mem (fun r0 => if r0.id = mid then g r0 else r0) hr
  simpa [updateById, he] using hmem

theorem of_mem_updateById {mid : String} {g : MessageRow → MessageRow}
    {ms : List MessageRow} {r : MessageRow} (hr : r ∈ updateById mid g ms) :
    (∃ r0 ∈ ms, r0.id = mid ∧ r = g r0) ∨ (r ∈ ms ∧ r.id ≠ mid) := by
  rcases List.mem_map.mp hr with ⟨r0, hr0, heq⟩
  by_cases h0 : r0.id = mid
  · rw [if_pos h0] at heq
    exact Or.inl ⟨r0, hr0, h0, heq.symm⟩
  · rw [if_neg h0] at heq
    exact Or.inr ⟨heq ▸ hr0, heq ▸ h0⟩

theorem updateById_map_id (mid : String) (g : MessageRow → MessageRow)
    (hg : ∀ r, (g r).id = r.id) (ms : List MessageRow) :
    (updateById mid g ms).map MessageRow.id = ms.map MessageRow.id := by
  unfold updateById
  rw [List.map_map]
  refine List.map_congr_left fun r _ => ?_
  by_cases h : r.id = mid
  · simp [Function.comp, h, hg]
  · simp [Function.comp, h]

theorem claimUpdateRow_id (mid : String) (now : Nat) (r : MessageRow) :
    (claimUpdateRow mid now r).id = r.id := by
  unfold claimUpdateRow
  split <;> rfl

theorem applyClaimUpdates_cons (mid : String) (ids : List String) (now : Nat)
    (ms : List MessageRow) :
    applyClaimUpdates (mid :: ids) now ms =
      applyClaimUpdates ids now (ms.map (claimUpdateRow mid now)) := rfl

theorem applyClaimUpdates_map_id : ∀ (ids : List String) (now : Nat)
    (ms : List MessageRow),
    (applyClaimUpdates ids now ms).map MessageRow.id = ms.map MessageRow.id
  | [], _, _ => rfl
  | mid :: ids, now, ms => by
    rw [applyClaimUpdates_cons, applyClaimUpdates_map_id ids now, List.map_map]
    exact List.map_congr_left fun r _ => claimUpdateRow_id mid now r

theorem mem_applyClaimUpdates : ∀ (ids : List String) (now : Nat)
    (ms : List MessageRow) (r : MessageRow), r ∈ applyClaimUpdates ids now ms →
    (r.id ∈ ids → r.status = Status.processing) ∧ (r.id ∉ ids → r ∈ ms)
  | [], _, _, r, hr => ⟨fun h => absurd h (List.not_mem_nil r.id), fun _ => hr⟩
  | mid :: ids, now, ms, r, hr => by
    rw [applyClaimUpdates_cons] at hr
    have ih := mem_applyClaimUpdates ids now (ms.map (claimUpdateRow mid now)) r hr
    by_cases hin : r.id ∈ ids
    · exact ⟨fun _ => ih.1 hin, fun hno => absurd (List.mem_cons_of_mem mid hin) hno⟩
    · have hm := ih.2 hin
      rcases List.mem_map.mp hm with ⟨r0, hr0, heq⟩
      constructor
      · intro hmem
        rcases List.mem_cons.mp hmem with he | hi
        · subst heq
          by_cases h0 : r0.id = mid
          · simp [claimUpdateRow, h0]
          · simp [claimUpdateRow, h0] at he
        · exact absurd hi hin
      · intro hnot
        have hne : r.id ≠ mid := fun h => hnot (h ▸ List.mem_cons_self mid ids)
        subst heq
        by_cases h0 : r0.id = mid
        · simp [claimUpdateRow, h0] at hne
        · simpa [claimUpdateRow, h0] using hr0

theorem mem_claimSelect {q : String} {now lim : Nat} {db : DB} {r : MessageRow}
    (hr : r ∈ claimSelect q now lim db) :
    r ∈ db.messages ∧ fetchFilter q now r = true := by
  have h1 : r ∈ List.insertionSort claimOrder (db.messages.filter (fetchFilter q now)) :=
    (List.take_sublist _ _).subset hr
  have h2 : r ∈ db.messages.filter (fetchFilter q now) :=
    (List.perm_insertionSort claimOrder _).subset h1
  exact List.mem_filter.mp h2

theorem fetchFilter_eq_true {q : String} {now : Nat} {r : MessageRow}
    (h : fetchFilter q now r = true) :
    r.queueName = q ∧ r.status = Status.pending ∧ r.availableAt ≤ now := by
  unfold fetchFilter at h
  simp only [Bool.and_eq_true, beq_iff_eq, decide_eq_true_eq] at h
  exact ⟨h.1.1, h.1.2, h.2⟩

theorem claimSelect_nodup_ids {q : String} {now lim : Nat} {db : DB}
    (h : (db.messages.map MessageRow.id).Nodup) :
    ((claimSelect q now lim db).map MessageRow.id).Nodup := by
  have h1 : ((db.messages.filter (fetchFilter q now)).map MessageRow.id).Nodup :=
    List.Nodup.sublist ((List.filter_sublist _).map MessageRow.id) h
  have h2 : ((List.insertionSort claimOrder
      (db.messages.filter (fetchFilter q now))).map MessageRow.id).Nodup :=
    (((List.perm_insertionSort claimOrder _).map MessageRow.id).symm).nodup h1
  exact List.Nodup.sublist ((List.take_sublist _ _).map MessageRow.id) h2

/-! ### Claim C1 -/

/-- Claim C1 counterexample: the UPDATE statement of fetchMessages names only
the id in its WHERE clause; applied to a row whose status is completed it
still forces processing, whereas the compare-and-swap update the claim
describes (modelled by claimUpdateRowCAS) leaves such a row unchanged.  The
transition is therefore not conditioned on the status still being pending,
and no row is ever excluded from the returned batch. -/
theorem claim_update_not_cas :
    claimUpdateRow "m1" 7 doneRow ≠ claimUpdateRowCAS "m1" 7 doneRow ∧
    (claimUpdateRow "m1" 7 doneRow).status = Status.processing ∧
    claimUpdateRowCAS "m1" 7 doneRow = doneRow ∧
    doneRow.status = Status.completed := by decide

/-- Claim C1 amended: fetchMessages performs selection and status transition
inside one transaction, transitioning every selected row to processing by an
unconditional UPDATE keyed on id (atomicity rests on the transaction, not on a
per-row compare-and-swap), and the full selected batch is returned to the
caller: no selected row is ever excluded. -/
theorem fetch_transition_in_transaction (q : String) (now lim : Nat) (db : DB) :
    (fetchMessages q now lim db).1 = claimSelect q now lim db ∧
    (∀ r ∈ (fetchMessages q now lim db).2.messages,
      r.id ∈ (claimSelect q now lim db).map MessageRow.id →
        r.status = Status.processing) ∧
    (∀ r ∈ (fetchMessages q now lim db).2.messages,
      r.id ∉ (claimSelect q now lim db).map MessageRow.id → r ∈ db.messages) := by
  refine ⟨rfl, ?_, ?_⟩
  · intro r hr hid
    exact (mem_applyClaimUpdates _ now db.messages r hr).1 hid
  · intro r hr hid
    exact (mem_applyClaimUpdates _ now db.messages r hr).2 hid

/-- Witness for the amended C1 theorem on a concrete claim over dbTwo. -/
theorem fetch_transition_witness :
    (claimUpdateRow "a" 5 rowA).status = Status.processing :=
  (fetch_transition_in_transaction "q" 5 1 dbTwo).2.1
    (claimUpdateRow "a" 5 rowA) (by decide) (by decide)

/-! ### Claim C4 -/

/-- Claim C4 counterexample: the claim SELECT of fetchMessages never consults
expires_at, so a pending message whose expiry deadline (second 5) has already
passed at claim time (second 10) is still returned; the claimability predicate
of the claim (expiresAt null or greater than now) is false on the returned
row. -/
theorem fetch_returns_expired :
    (fetchMessages "q" 10 1 dbExpired).1 = [expiredRow] ∧
    expiredRow.expiresAt = some 5 ∧ (5 : Nat) ≤ 10 := by decide

/-- Claim C4 amended: every message returned by fetchMessages satisfies
status = pending, availableAt less than or equal to now and queueName = q (the
expiry deadline is not part of the claim SELECT), the batch holds at most
batchSize messages, and it is ordered by priority descending with ties broken
by createdAt ascending. -/
theorem fetch_batch_shape (q : String) (now lim : Nat) (db : DB) :
    (fetchMessages q now lim db).1.length ≤ lim ∧
    List.Sorted claimOrder (fetchMessages q now lim db).1 ∧
    ∀ r ∈ (fetchMessages q now lim db).1,
      r.queueName = q ∧ r.status = Status.pending ∧ r.availableAt ≤ now := by
  refine ⟨?_, ?_, ?_⟩
  · show (claimSelect q now lim db).length ≤ lim
    unfold claimSelect
    rw [List.length_take]
    exact min_le_left _ _
  · show List.Sorted claimOrder (claimSelect q now lim db)
    unfold claimSelect
    exact List.Pairwise.sublist (List.take_sublist _ _)
      (List.sorted_insertionSort claimOrder _)
  · intro r hr
    exact fetchFilter_eq_true (mem_claimSelect hr).2

/-- Witness for the amended C4 theorem on the expired-message store. -/
theorem fetch_batch_shape_witness :
    expiredRow.queueName = "q" ∧ expiredRow.status = Status.pending ∧
    expiredRow.availableAt ≤ 10 :=
  (fetch_batch_shape "q" 10 1 dbExpired).2.2 expiredRow (by decide)

/-! ### Claim C5 -/

/-- Claim C5 counterexample: on a failed attempt for a retryable message the
code invokes two of the three failure-routing store operations, not exactly
one: the catch block of processMessage invokes markMessageFailed before
handleMessageError routes the message to retryMessage. -/
theorem failed_attempt_invokes_two_ops :
    failedAttemptOps rowA {} = [StoreOp.markFailed, StoreOp.retry] ∧
    routingOpCount (failedAttemptOps rowA {}) = 2 := by decide

/-- Claim C5 amended: on every failed attempt, markMessageFailed is invoked
first (by the catch block of processMessage), and then handleMessageError
invokes exactly one further operation chosen by the documented rule: retry
when retries < min(maxRetries, deadLetterConfig.maxRetries), else
moveToDeadLetter when dead-lettering is enabled, else markFailed; in total two
of the three routing operations run per failed attempt. -/
theorem failed_attempt_ops_route (msg : MessageRow) (cfg : DeadLetterConfig) :
    failedAttemptOps msg cfg = [StoreOp.markFailed, handleMessageErrorOp msg cfg] ∧
    routingOpCount (failedAttemptOps msg cfg) = 2 ∧
    (msg.retries < min msg.maxRetries cfg.maxRetries →
      handleMessageErrorOp msg cfg = StoreOp.retry) ∧
    (¬ msg.retries < min msg.maxRetries cfg.maxRetries → cfg.enabled = true →
      handleMessageErrorOp msg cfg = StoreOp.moveToDL) ∧
    (¬ msg.retries < min msg.maxRetries cfg.maxRetries → cfg.enabled = false →
      handleMessageErrorOp msg cfg = StoreOp.markFailed) := by
  refine ⟨rfl, ?_, ?_, ?_, ?_⟩
  · show routingOpCount [StoreOp.markFailed, handleMessageErrorOp msg cfg] = 2
    unfold handleMessageErrorOp
    split
    · rfl
    · split <;> rfl
  · intro h
    unfold handleMessageErrorOp
    rw [if_pos h]
  · intro h he
    unfold handleMessageErrorOp
    rw [if_neg h, if_pos he]
  · intro h he
    unfold handleMessageErrorOp
    rw [if_neg h, if_neg (by simp [he])]

/-- Witness for the amended C5 theorem: a first failure of rowA routes to
retry. -/
theorem failed_attempt_ops_witness :
    handleMessageErrorOp rowA {} = StoreOp.retry :=
  (failed_attempt_ops_route rowA {}).2.2.1 (by decide)

/-! ### Claim C7 -/

/-- Claim C7 counterexample: retrying a message that has never been retried
(retries 0) at second 100 leaves availableAt at second 100 — the backoff added
is the old retries count times 60, so the first retry is immediate, not 60
seconds later as the claim states. -/
theorem retry_zero_backoff :
    (retryMessage 100 "r1" dbRetryProbe).messages =
      [{ retryProbeRow with
          status := Status.pending
          retries := 1
          availableAt := 100 }] ∧
    (100 : Nat) ≠ 100 + 1 * 60 := by decide

/-- Claim C7 amended: retryMessage sets status to pending, increments retries
by exactly one, and sets availableAt to now plus the OLD retries count times
60 seconds (so the first retry after one failure is available immediately);
rows with a different id are untouched. -/
theorem retry_message_updates (now : Nat) (mid : String) (db : DB)
    (r : MessageRow) (hr : r ∈ db.messages) :
    (r.id = mid →
      { r with
        status := Status.pending
        retries := r.retries + 1
        availableAt := now + r.retries * 60 } ∈
        (retryMessage now mid db).messages) ∧
    (r.id ≠ mid → r ∈ (retryMessage now mid db).messages) := by
  constructor
  · intro he
    exact mem_updateById_eq hr he
  · intro hne
    exact mem_updateById_ne hr hne

/-- Witness for the amended C7 theorem on the single-row retry store. -/
theorem retry_message_updates_witness :
    { retryProbeRow with
      status := Status.pending
      retries := retryProbeRow.retries + 1
      availableAt := 100 + retryProbeRow.retries * 60 } ∈
      (retryMessage 100 "r1" dbRetryProbe).messages :=
  (retry_message_updates 100 "r1" dbRetryProbe retryProbeRow (by decide)).1 (by decide)

/-! ### Claim C8 -/

/-- Claim C8 counterexample: MessageQueue.send performs no validation at all:
a send with an empty queue name (and the serialized null payload) succeeds,
inserts a row and returns the fresh message id instead of rejecting before any
write. -/
theorem send_accepts_empty_queue :
    (send 1000 "mx" "" "null" {} {} emptyDB).1 = Except.ok "mx" ∧
    (send 1000 "mx" "" "null" {} {} emptyDB).2.messages.length = 1 ∧
    (send 1000 "mx" "" "null" {} {} emptyDB).2.messages.map MessageRow.queueName =
      [""] := by decide

/-- Claim C8 amended: MessageQueue.send does not validate its arguments; for
every payload (including the serialized null payload) a send with an empty
queue name on the fresh store succeeds and inserts the new row.  (The
validation the spec describes lives in the separate Producer wrapper, outside
this module.) -/
theorem send_no_validation (nowMs : Nat) (mid payload : String)
    (opts : SendOptions) (mq : MQOptions) (hd : opts.deduplicationId = none) :
    (send nowMs mid "" payload opts mq emptyDB).1 = Except.ok mid ∧
    (send nowMs mid "" payload opts mq emptyDB).2.messages =
      [newMessageRow nowMs mid "" payload opts mq] := by
  unfold send
  simp [emptyDB, hd]

/-- Witness for the amended C8 theorem at a concrete empty-name send. -/
theorem send_no_validation_witness :
    (send 1000 "my" "" "x" {} {} emptyDB).1 = Except.ok "my" ∧
    (send 1000 "my" "" "x" {} {} emptyDB).2.messages =
      [newMessageRow 1000 "my" "" "x" {} {}] :=
  send_no_validation 1000 "my" "x" {} {} rfl

/-! ### Claim C3 -/

/-- Claim C3: evaluation of the deduplication path at the failing input.  A
second send of the same (queue, deduplication id) pair, issued one hundred
seconds after the first while the first non-failed message still exists,
inserts a second row and returns the fresh id: the deduplication SELECT orders
by created_at descending, so it returns the just-inserted newest row, whose id
equals the new message id, and the duplicate branch is skipped.  The claim,
the inline code comment above the throw, and the Producer test all expect the
existing id back and exactly one row for the pair. -/
theorem send_dedup_inserts_duplicate :
    (send 100000 "m1" "q" "p" dedupOpts {} emptyDB).1 = Except.ok "m1" ∧
    secondSend.1 = Except.ok "m2" ∧
    secondSend.2.messages.length = 2 ∧
    (secondSend.2.messages.filter (dedupMatch "q" "d")).length = 2 := by decide

/-! ### Claim C6 -/

/-- Claim C6: evaluation of the always-failing consumer at the failing input.
For the message sent with maxRetries 2 (dead-lettering enabled with queue
maxRetries 3, so effectiveMaxRetries = 2), the handler is invoked exactly 3
times, once per attempt at retries 0, 1 and 2, because retries <
effectiveMaxRetries grants a retry after each of the first two failures; after
the third failure exactly one dead-letter copy exists and no messages row
remains.  The claim, the spec and the repository test suite expect exactly 2
invocations. -/
theorem always_failing_three_attempts :
    dbMaxRetriesTwo.messages.map MessageRow.maxRetries = [2] ∧
    failRun.1 = 3 ∧
    failRun.2.messages.length = 0 ∧
    failRun.2.deadLetters.map DeadLetterRow.originalId = ["m1"] := by decide

/-! ### Claim C10 -/

/-- Claim C10: for every existing dead-letter row, requeueDeadLetterMessage
succeeds and creates the new message with priority fixed to 5, maxRetries
fixed to 3, retries 0, status pending (the INSERT omits the status column, so
the schema default applies) and createdAt = availableAt = the requeue time,
regardless of the original priority and retry budget (which the dead-letter
table does not even store); the dead-letter row is removed in the same
transaction. -/
theorem requeue_resets_with_defaults (now : Nat) (newId dlqId : String)
    (db : DB) (d : DeadLetterRow)
    (hfind : db.deadLetters.find? (fun e => e.id == dlqId) = some d)
    (hfresh : ∀ r ∈ db.messages, r.id ≠ newId) :
    (requeueDeadLetterMessage now newId dlqId db).1 = Except.ok () ∧
    requeueRow now newId d ∈ (requeueDeadLetterMessage now newId dlqId db).2.messages ∧
    (requeueRow now newId d).priority = 5 ∧
    (requeueRow now newId d).maxRetries = 3 ∧
    (requeueRow now newId d).retries = 0 ∧
    (requeueRow now newId d).status = Status.pending ∧
    (requeueRow now newId d).createdAt = now ∧
    (requeueRow now newId d).availableAt = now ∧
    (∀ e ∈ (requeueDeadLetterMessage now newId dlqId db).2.deadLetters,
      e.id ≠ dlqId) := by
  have hany : db.messages.any (fun r => r.id == newId) = false := by
    rw [List.any_eq_false]
    intro r hr
    simp [hfresh r hr]
  have hres : requeueDeadLetterMessage now newId dlqId db =
      (Except.ok (), ⟨db.messages ++ [requeueRow now newId d],
        db.deadLetters.filter (fun e => !(e.id == dlqId))⟩) := by
    unfold requeueDeadLetterMessage
    rw [hfind, hany]
    simp
  rw [hres]
  refine ⟨rfl, ?_, rfl, rfl, rfl, rfl, rfl, rfl, ?_⟩
  · exact List.mem_append_right _ (List.mem_singleton_self _)
  · intro e he
    have hp := List.of_mem_filter he
    simpa using hp

/-- Witness for the C10 theorem on the single-row dead-letter store. -/
theorem requeue_resets_witness :
    (requeueDeadLetterMessage 60 "n1" "dl1" dbWithDeadLetter).1 = Except.ok () ∧
    requeueRow 60 "n1" dlRowProbe ∈
      (requeueDeadLetterMessage 60 "n1" "dl1" dbWithDeadLetter).2.messages :=
  ⟨(requeue_resets_with_defaults 60 "n1" "dl1" dbWithDeadLetter dlRowProbe
      (by decide) (by decide)).1,
   (requeue_resets_with_defaults 60 "n1" "dl1" dbWithDeadLetter dlRowProbe
      (by decide) (by decide)).2.1⟩

/-! ### Claim C2 -/

theorem fetch_map_id (q : String) (now lim : Nat) (db : DB) :
    (fetchMessages q now lim db).2.messages.map MessageRow.id =
      db.messages.map MessageRow.id :=
  applyClaimUpdates_map_id _ now db.messages

/-- A row that is still pending after a fetchMessages transaction was not part
of the claimed batch and sat untouched in the previous state. -/
theorem pending_mem_of_fetch {q : String} {now lim : Nat} {db : DB}
    {r : MessageRow} (hr : r ∈ (fetchMessages q now lim db).2.messages)
    (hp : r.status = Status.pending) :
    r ∈ db.messages ∧ r.id ∉ (claimSelect q now lim db).map MessageRow.id := by
  have h := mem_applyClaimUpdates _ now db.messages r hr
  by_cases hid : r.id ∈ (claimSelect q now lim db).map MessageRow.id
  · exfalso
    have h2 := h.1 hid
    rw [hp] at h2
    exact Status.noConfusion h2
  · exact ⟨h.2 hid, hid⟩

/-- A row that is still pending after markMessageCompleted sat untouched in
the previous state. -/
theorem pending_mem_of_complete {now pt : Nat} {mid : String} {db : DB}
    {r : MessageRow} (hr : r ∈ (markMessageCompleted now pt mid db).messages)
    (hp : r.status = Status.pending) : r ∈ db.messages := by
  rcases of_mem_updateById hr with ⟨r0, hr0, _, heq⟩ | ⟨hm, _⟩
  · exfalso
    rw [heq] at hp
    exact Status.noConfusion hp
  · exact hm

/-- Soundness of an arbitrary interleaving of consumer transactions: starting
from a store whose message ids are distinct, the messages handed to handlers
across the whole interleaving have pairwise distinct ids (each message has at
most one owner, ever), and each of them was pending in the starting store. -/
theorem runConsumerOps_sound (q : String) : ∀ (ops : List ConsumerOp) (db : DB),
    (db.messages.map MessageRow.id).Nodup →
    ((runConsumerOps q ops db).1.map MessageRow.id).Nodup ∧
    (∀ r ∈ (runConsumerOps q ops db).1,
      ∃ r0 ∈ db.messages, r0.id = r.id ∧ r0.status = Status.pending)
  | [], db, _ => ⟨List.nodup_nil, fun r hr => absurd hr (List.not_mem_nil r)⟩
  | ConsumerOp.poll t l :: rest, db, hnd => by
    have hnd1 : ((fetchMessages q t l db).2.messages.map MessageRow.id).Nodup := by
      rw [fetch_map_id]
      exact hnd
    have ih := runConsumerOps_sound q rest (fetchMessages q t l db).2 hnd1
    have hbatch : ∀ r ∈ (fetchMessages q t l db).1,
        r ∈ db.messages ∧ r.status = Status.pending := fun r hr =>
      ⟨(mem_claimSelect hr).1, (fetchFilter_eq_true (mem_claimSelect hr).2).2.1⟩
    constructor
    · show ((((fetchMessages q t l db).1) ++
        (runConsumerOps q rest (fetchMessages q t l db).2).1).map MessageRow.id).Nodup
      rw [List.map_append, List.nodup_append]
      refine ⟨claimSelect_nodup_ids hnd, ih.1, ?_⟩
      intro i hi1 hi2
      rcases List.mem_map.mp hi2 with ⟨r, hr, hrid⟩
      rcases ih.2 r hr with ⟨r0, hr0, hid0, hp0⟩
      exact (pending_mem_of_fetch hr0 hp0).2 (by rw [hid0, hrid]; exact hi1)
    · intro r hr
      rcases List.mem_append.mp hr with hb | hn
      · exact ⟨r, (hbatch r hb).1, rfl, (hbatch r hb).2⟩
      · rcases ih.2 r hn with ⟨r0, hr0, hid0, hp0⟩
        exact ⟨r0, (pending_mem_of_fetch hr0 hp0).1, hid0, hp0⟩
  | ConsumerOp.complete t pt mid :: rest, db, hnd => by
    have hnd1 : ((markMessageCompleted t pt mid db).messages.map MessageRow.id).Nodup := by
      rw [show (markMessageCompleted t pt mid db).messages =
            updateById mid (fun r =>
              { r with status := Status.completed, processedAt := some t,
                       processingTime := some pt }) db.messages from rfl,
          updateById_map_id mid (fun r =>
            { r with status := Status.completed, processedAt := some t,
                     processingTime := some pt }) (fun r => rfl)]
      exact hnd
    have ih := runConsumerOps_sound q rest (markMessageCompleted t pt mid db) hnd1
    refine ⟨ih.1, ?_⟩
    intro r hr
    rcases ih.2 r hr with ⟨r0, hr0, hid0, hp0⟩
    exact ⟨r0, pending_mem_of_complete hr0 hp0, hid0, hp0⟩

/-- Claim C2: two consumers polling the same queue over the store holding
exactly the two messages rowA and rowB.  Each consumer transaction
(fetchMessages, markMessageCompleted) runs atomically on the shared
better-sqlite3 connection, so any concurrent execution of the two consumers is
some sequence of these transactions.  First conjunct: in every such
interleaving the messages dispatched to handlers have pairwise distinct ids
drawn from the two enqueued messages, so the handler invocation total never
exceeds 2 and no message is ever owned by two handlers.  Second conjunct: in
the canonical interleaving in which each consumer polls once with batchSize 1,
each consumer receives exactly one distinct message and the invocation total
is exactly 2. -/
theorem two_consumers_two_messages :
    (∀ ops : List ConsumerOp,
      ((runConsumerOps "q" ops dbTwo).1.map MessageRow.id).Nodup ∧
      ∀ r ∈ (runConsumerOps "q" ops dbTwo).1, r.id = "a" ∨ r.id = "b") ∧
    (runConsumerOps "q" [ConsumerOp.poll 0 1, ConsumerOp.poll 0 1] dbTwo).1.map
      MessageRow.id = ["a", "b"] := by
  constructor
  · intro ops
    have h := runConsumerOps_sound "q" ops dbTwo (by decide)
    refine ⟨h.1, ?_⟩
    intro r hr
    rcases h.2 r hr with ⟨r0, hr0, hid0, _⟩
    have hr0c : r0 = rowA ∨ r0 = rowB := by
      simpa [dbTwo] using hr0
    rw [← hid0]
    rcases hr0c with h1 | h1
    · exact Or.inl (by rw [h1]; rfl)
    · exact Or.inr (by rw [h1]; rfl)
  · decide

/-- Witness for the C2 theorem: the message claimed by the first poll is one
of the two enqueued messages. -/
theorem two_consumers_witness : rowA.id = "a" ∨ rowA.id = "b" :=
  (two_consumers_two_messages.1 [ConsumerOp.poll 0 1]).2 rowA (by decide)

/-! ### Claim C9 -/

theorem msgCountList_eq_count (ms : List MessageRow) (mid : String) :
    (ms.filter (fun r => r.id == mid)).length = (ms.map MessageRow.id).count mid := by
  rw [← List.countP_eq_length_filter, List.count_eq_countP, List.countP_map]
  rfl

theorem filter_append_single {α : Type} (p : α → Bool) (l : List α) (a : α) :
    ((l ++ [a]).filter p).length =
      (l.filter p).length + (if p a = true then 1 else 0) := by
  rw [List.filter_append]
  by_cases h : p a = true
  · simp [h]
  · simp [h]

theorem msgCount_fetch (q : String) (now lim : Nat) (db : DB) (m : String) :
    msgCount (fetchMessages q now lim db).2 m = msgCount db m := by
  unfold msgCount
  rw [msgCountList_eq_count, msgCountList_eq_count, fetch_map_id]

theorem msgCount_markCompleted (now pt : Nat) (mid : String) (db : DB) (m : String) :
    msgCount (markMessageCompleted now pt mid db) m = msgCount db m := by
  unfold msgCount markMessageCompleted
  rw [msgCountList_eq_count, msgCountList_eq_count,
    updateById_map_id mid (fun r =>
      { r with status := Status.completed, processedAt := some now,
               processingTime := some pt }) (fun r => rfl)]

theorem msgCount_markFailed (now : Nat) (err mid : String) (db : DB) (m : String) :
    msgCount (markMessageFailed now err mid db) m = msgCount db m := by
  unfold msgCount markMessageFailed
  rw [msgCountList_eq_count, msgCountList_eq_count,
    updateById_map_id mid (fun r =>
      { r with status := Status.failed, failedAt := some now,
               errorMessage := some err }) (fun r => rfl)]

theorem msgCount_retry (now : Nat) (mid : String) (db : DB) (m : String) :
    msgCount (retryMessage now mid db) m = msgCount db m := by
  unfold msgCount retryMessage
  rw [msgCountList_eq_count, msgCountList_eq_count,
    updateById_map_id mid (fun r =>
      { r with status := Status.pending, retries := r.retries + 1,
               availableAt := now + r.retries * 60 }) (fun r => rfl)]

/-- Every single operation of the queue engine preserves the at-most-one-row
invariant, with the uuid-freshness and claimed-row facts recorded on the
step. -/
theorem step_preserves_atMostOne {db db' : DB} (hs : Step db db')
    (hinv : AtMostOne db) : AtMostOne db' := by
  cases hs with
  | sendStep nowMs mid q payload opts mq db hfresh =>
    by_cases hpk : db.messages.any (fun r => r.id == mid) = true
    · have he : (send nowMs mid q payload opts mq db).2 = db := by
        unfold send
        rw [if_pos hpk]
      rw [he]
      exact hinv
    · have hpk' : db.messages.any (fun r => r.id == mid) = false := by
        revert hpk
        cases db.messages.any (fun r => r.id == mid) <;> simp
      have hcase : (send nowMs mid q payload opts mq db).2 = db ∨
          (send nowMs mid q payload opts mq db).2 =
            ⟨db.messages ++ [newMessageRow nowMs mid q payload opts mq],
             db.deadLetters⟩ := by
        unfold send
        rw [if_neg hpk]
        split
        · exact Or.inr rfl
        · split
          · split
            · exact Or.inr rfl
            · exact Or.inl rfl
          · exact Or.inr rfl
      rcases hcase with he | he
      · rw [he]
        exact hinv
      · rw [he]
        intro m
        show ((db.messages ++ [newMessageRow nowMs mid q payload opts mq]).filter
            (fun r => r.id == m)).length +
          (db.deadLetters.filter (fun e => e.originalId == m)).length ≤ 1
        rw [filter_append_single]
        by_cases hm : mid = m
        · subst hm
          have h1 : (db.messages.filter (fun r => r.id == mid)).length = 0 := by
            rw [List.length_eq_zero, List.filter_eq_nil_iff]
            exact List.any_eq_false.mp hpk'
          have h2 : (db.deadLetters.filter (fun e => e.originalId == mid)).length = 0 := by
            rw [List.length_eq_zero, List.filter_eq_nil_iff]
            intro e he2
            simpa using hfresh e he2
          have h3 : ((newMessageRow nowMs mid q payload opts mq).id == mid) = true := by
            simp [newMessageRow]
          rw [h1, h2, if_pos h3]
        · have h3 : ((newMessageRow nowMs mid q payload opts mq).id == m) = false := by
            simpa [newMessageRow] using hm
          rw [if_neg (by simp [h3])]
          have h5 := hinv m
          unfold msgCount dlqOrigCount at h5
          omega
  | fetchStep q now limit db =>
    intro m
    have h1 := msgCount_fetch q now limit db m
    have h2 : dlqOrigCount (fetchMessages q now limit db).2 m = dlqOrigCount db m := rfl
    have h5 := hinv m
    omega
  | completeStep now pt mid db =>
    intro m
    have h1 := msgCount_markCompleted now pt mid db m
    have h2 : dlqOrigCount (markMessageCompleted now pt mid db) m = dlqOrigCount db m := rfl
    have h5 := hinv m
    omega
  | failStep now err mid db =>
    intro m
    have h1 := msgCount_markFailed now err mid db m
    have h2 : dlqOrigCount (markMessageFailed now err mid db) m = dlqOrigCount db m := rfl
    have h5 := hinv m
    omega
  | retryStep now mid db =>
    intro m
    have h1 := msgCount_retry now mid db m
    have h2 : dlqOrigCount (retryMessage now mid db) m = dlqOrigCount db m := rfl
    have h5 := hinv m
    omega
  | moveStep now dlqId msg err db hclaimed =>
    by_cases hpk : db.deadLetters.any (fun e => e.id == dlqId) = true
    · have he : (moveToDeadLetter now dlqId msg err db).2 = db := by
        unfold moveToDeadLetter
        rw [if_pos hpk]
      rw [he]
      exact hinv
    · have he : (moveToDeadLetter now dlqId msg err db).2 =
          ⟨db.messages.filter (fun r => !(r.id == msg.id)),
           db.deadLetters ++ [⟨dlqId, msg.id, msg.queueName, msg.payload, err,
             msg.retries, now, msg.createdAt, msg.metadata⟩]⟩ := by
        unfold moveToDeadLetter
        rw [if_neg hpk]
      rw [he]
      intro m
      show ((db.messages.filter (fun r => !(r.id == msg.id))).filter
          (fun r => r.id == m)).length +
        ((db.deadLetters ++ [(⟨dlqId, msg.id, msg.queueName, msg.payload, err,
          msg.retries, now, msg.createdAt, msg.metadata⟩ : DeadLetterRow)]).filter
          (fun e => e.originalId == m)).length ≤ 1
      rw [filter_append_single]
      by_cases hm : msg.id = m
      · subst hm
        have h1 : ((db.messages.filter (fun r => !(r.id == msg.id))).filter
            (fun r => r.id == msg.id)).length = 0 := by
          rw [List.length_eq_zero, List.filter_eq_nil_iff]
          intro r hr
          have h2 := List.of_mem_filter hr
          simp at h2
          simp [h2]
        have hmsg1 : 1 ≤ msgCount db msg.id := by
          rcases hclaimed with ⟨r, hr, hid⟩
          have hmem : r ∈ db.messages.filter (fun r0 => r0.id == msg.id) :=
            List.mem_filter.mpr ⟨hr, by simp [hid]⟩
          exact List.length_pos_of_mem hmem
        have hdlq0 : (db.deadLetters.filter (fun e => e.originalId == msg.id)).length = 0 := by
          have h5 := hinv msg.id
          unfold msgCount at hmsg1
          unfold msgCount dlqOrigCount at h5
          omega
        rw [h1, hdlq0, if_pos (by simp)]
      · have hle : ((db.messages.filter (fun r => !(r.id == msg.id))).filter
            (fun r => r.id == m)).length ≤
            (db.messages.filter (fun r => r.id == m)).length :=
          (List.Sublist.filter _ (List.filter_sublist _)).length_le
        have h3 : ((⟨dlqId, msg.id, msg.queueName, msg.payload, err,
            msg.retries, now, msg.createdAt, msg.metadata⟩ : DeadLetterRow).originalId
              == m) = false := by
          simpa using hm
        rw [if_neg (by simp [h3])]
        have h5 := hinv m
        unfold msgCount dlqOrigCount at h5
        omega
  | requeueStep now newId dlqId db hfresh =>
    rcases hf : db.deadLetters.find? (fun e => e.id == dlqId) with _ | dRow
    · have he : (requeueDeadLetterMessage now newId dlqId db).2 = db := by
        unfold requeueDeadLetterMessage
        rw [hf]
      rw [he]
      exact hinv
    · by_cases hpk : db.messages.any (fun r => r.id == newId) = true
      · have he : (requeueDeadLetterMessage now newId dlqId db).2 = db := by
          simp only [requeueDeadLetterMessage, hf]
          rw [if_pos hpk]
        rw [he]
        exact hinv
      · have hpk' : db.messages.any (fun r => r.id == newId) = false := by
          revert hpk
          cases db.messages.any (fun r => r.id == newId) <;> simp
        have he : (requeueDeadLetterMessage now newId dlqId db).2 =
            ⟨db.messages ++ [requeueRow now newId dRow],
             db.deadLetters.filter (fun e => !(e.id == dlqId))⟩ := by
          simp only [requeueDeadLetterMessage, hf]
          rw [if_neg hpk]
        rw [he]
        intro m
        show ((db.messages ++ [requeueRow now newId dRow]).filter
            (fun r => r.id == m)).length +
          ((db.deadLetters.filter (fun e => !(e.id == dlqId))).filter
            (fun e => e.originalId == m)).length ≤ 1
        rw [filter_append_single]
        have hdlqle : ((db.deadLetters.filter (fun e => !(e.id == dlqId))).filter
            (fun e => e.originalId == m)).length ≤
            (db.deadLetters.filter (fun e => e.originalId == m)).length :=
          (List.Sublist.filter _ (List.filter_sublist _)).length_le
        by_cases hm : newId = m
        · subst hm
          have h1 : (db.messages.filter (fun r => r.id == newId)).length = 0 := by
            rw [List.length_eq_zero, List.filter_eq_nil_iff]
            exact List.any_eq_false.mp hpk'
          have h2 : (db.deadLetters.filter (fun e => e.originalId == newId)).length = 0 := by
            rw [List.length_eq_zero, List.filter_eq_nil_iff]
            intro e he2
            simpa using hfresh e he2
          have h3 : ((requeueRow now newId dRow).id == newId) = true := by
            simp [requeueRow]
          rw [h1, if_pos h3]
          omega
        · have h3 : ((requeueRow now newId dRow).id == m) = false := by
            simpa [requeueRow] using hm
          rw [if_neg (by simp [h3])]
          have h5 := hinv m
          unfold msgCount dlqOrigCount at h5
          omega
  | cleanupStep now db =>
    intro m
    have h1 : msgCount (cleanupExpiredMessages now db).2 m ≤ msgCount db m :=
      List.Sublist.length_le (List.Sublist.filter _ (List.filter_sublist _))
    have h2 : dlqOrigCount (cleanupExpiredMessages now db).2 m = dlqOrigCount db m := rfl
    have h5 := hinv m
    omega

/-- Claim C9 counterexample: a reachable state in which a message id has a
row in neither the messages table nor the dead-letter set, refuting the
exactly-one-row form of the invariant.  The message is sent with an
already-elapsed expiry and then deleted by cleanupExpiredMessages, after which
id m1 has zero rows anywhere.  (A requeue likewise leaves the original id
with no row in either set.) -/
theorem purged_message_in_neither :
    Reachable dbAfterPurge ∧
    msgCount dbAfterPurge "m1" = 0 ∧ dlqOrigCount dbAfterPurge "m1" = 0 := by
  refine ⟨?_, by decide, by decide⟩
  have h1 : Step emptyDB dbWithExpiry :=
    Step.sendStep 100000 "m1" "q" "p" { expiresAt := some 5000 } {} emptyDB
      (fun e he => absurd he (List.not_mem_nil e))
  have h2 : Step dbWithExpiry dbAfterPurge := Step.cleanupStep 10 dbWithExpiry
  exact Relation.ReflTransGen.tail (Relation.ReflTransGen.single h1) h2

/-- Claim C9 amended: at every reachable state every message id has at most
one row across the messages table and the dead-letter set — never one in each
— and moveToDeadLetter, whose dead-letter insert and message delete form one
transaction, takes a state in which the id has exactly one messages row (and
hence no dead-letter row) to one in which it has exactly one dead-letter row
and no messages row; a failure of the transaction leaves the state entirely
unchanged, never half-moved. -/
theorem reachable_at_most_one :
    (∀ db : DB, Reachable db → AtMostOne db) ∧
    (∀ (now : Nat) (dlqId : String) (msg : MessageRow) (err : String) (db : DB),
      Reachable db → (∃ r ∈ db.messages, r.id = msg.id) →
      db.deadLetters.any (fun e => e.id == dlqId) = false →
      (moveToDeadLetter now dlqId msg err db).1 = Except.ok () ∧
      msgCount (moveToDeadLetter now dlqId msg err db).2 msg.id = 0 ∧
      dlqOrigCount (moveToDeadLetter now dlqId msg err db).2 msg.id = 1) := by
  have hmain : ∀ db : DB, Reachable db → AtMostOne db := by
    intro db hdb
    induction hdb with
    | refl =>
      intro m
      simp [msgCount, dlqOrigCount, emptyDB]
    | tail hab hbc ih => exact step_preserves_atMostOne hbc ih
  refine ⟨hmain, ?_⟩
  intro now dlqId msg err db hdb hcl hpk
  have hinv := hmain db hdb
  have hmsg1 : 1 ≤ msgCount db msg.id := by
    rcases hcl with ⟨r, hr, hid⟩
    have hmem : r ∈ db.messages.filter (fun r0 => r0.id == msg.id) :=
      List.mem_filter.mpr ⟨hr, by simp [hid]⟩
    exact List.length_pos_of_mem hmem
  have hok : moveToDeadLetter now dlqId msg err db =
      (Except.ok (), ⟨db.messages.filter (fun r => !(r.id == msg.id)),
        db.deadLetters ++ [⟨dlqId, msg.id, msg.queueName, msg.payload, err,
          msg.retries, now, msg.createdAt, msg.metadata⟩]⟩) := by
    unfold moveToDeadLetter
    rw [if_neg (by simp [hpk])]
  rw [hok]
  refine ⟨rfl, ?_, ?_⟩
  · show ((db.messages.filter (fun r => !(r.id == msg.id))).filter
        (fun r => r.id == msg.id)).length = 0
    rw [List.length_eq_zero, List.filter_eq_nil_iff]
    intro r hr
    have h2 := List.of_mem_filter hr
    simp at h2
    simp [h2]
  · show ((db.deadLetters ++ [(⟨dlqId, msg.id, msg.queueName, msg.payload, err,
        msg.retries, now, msg.createdAt, msg.metadata⟩ : DeadLetterRow)]).filter
        (fun e => e.originalId == msg.id)).length = 1
    rw [filter_append_single]
    have hdlq0 : (db.deadLetters.filter (fun e => e.originalId == msg.id)).length = 0 := by
      have h5 := hinv msg.id
      unfold msgCount at hmsg1
      unfold msgCount dlqOrigCount at h5
      omega
    rw [hdlq0, if_pos (by simp)]

/-- Witness for the amended C9 theorem: dead-lettering the one message of the
reachable one-message store dbAfterFirstSend. -/
theorem reachable_at_most_one_witness :
    (moveToDeadLetter 300 "dlw" sentProbeRow "boom" dbAfterFirstSend).1 =
      Except.ok () ∧
    msgCount (moveToDeadLetter 300 "dlw" sentProbeRow "boom" dbAfterFirstSend).2
      sentProbeRow.id = 0 ∧
    dlqOrigCount (moveToDeadLetter 300 "dlw" sentProbeRow "boom" dbAfterFirstSend).2
      sentProbeRow.id = 1 :=
  reachable_at_most_one.2 300 "dlw" sentProbeRow "boom" dbAfterFirstSend
    (Relation.ReflTransGen.single
      (Step.sendStep 100000 "m1" "q" "p" dedupOpts {} emptyDB
        (fun e he => absurd he (List.not_mem_nil e))))
    ⟨sentProbeRow, by decide, rfl⟩ (by decide)

end LocusMQ
